import Mathlib

/-!
# Verification of the css-blocks `classnames` runtime helper

A shallow embedding of `src/packages/glimmer-templates/src/helpers/classnames.ts`:
the stack-encoded decoder/evaluator that turns a flat sequence of primitive
values into a space-joined string of CSS class names.

JavaScript primitive values on the input stack are modelled by `Value`
(numbers as `Int`, strings, booleans, and `undef` for `undefined`).
JavaScript truthiness and `toString` coercion are modelled explicitly.
The destructive `Array.prototype.shift` cursor is modelled by passing the
remaining `List Value` through every operation; a thrown `Error` is an
`Except.error`.  The recursive output-formula evaluator `boolExpr` is given
a fuel parameter (`boolExprFuel`); `boolExpr` runs it with fuel
`stack.length + 1`, which is proved sufficient.
-/

namespace Classnames

/-- A JavaScript primitive value as it may appear on the argument stack. -/
inductive Value where
  | num (n : Int)
  | str (s : String)
  | bool (b : Bool)
  | undef
deriving DecidableEq, Repr

/-- JavaScript truthiness of a `Value` (`!!v`). -/
def truthy : Value → Bool
  | .num n => n != 0
  | .str s => s != ""
  | .bool b => b
  | .undef => false

/-- JavaScript `toString` coercion (defined even on `undef`, where the real
`toString()` would throw; callers that can see `undef` branch before using it,
matching the source). -/
def jsToString : Value → String
  | .num n => toString n
  | .str s => s
  | .bool b => if b then "true" else "false"
  | .undef => "undefined"

/-- The ways an evaluation can abort: the thrown `Error`s of the source
(`e("not a number: ...")`, `e("string expected")`, `e("wtf")`), the implicit
`TypeError` of calling `.toString()` on `undefined`, and the fuel marker used
to define the recursive formula evaluator. -/
inductive DecodeError where
  | notANumber (msg : String)
  | typeError
  | stringExpected
  | wtf
  | outOfFuel
deriving DecidableEq, Repr

/-- `const number = (v) => typeof v[0] === "number" ? v.shift() : e("not a number: " + (v[0] || "undefined"))`. -/
def number : List Value → Except DecodeError (Int × List Value)
  | Value.num n :: rest => .ok (n, rest)
  | v :: _ =>
      .error (.notANumber ("not a number: " ++ (if truthy v then jsToString v else "undefined")))
  | [] => .error (.notANumber "not a number: undefined")

/-- `const string = (v) => v.shift().toString()`: throws a `TypeError` when the
front element is absent or `undefined`. -/
def string : List Value → Except DecodeError (String × List Value)
  | [] => .error .typeError
  | Value.undef :: _ => .error .typeError
  | v :: rest => .ok (jsToString v, rest)

/-- `truthyString`: shifts the front value; returns `none` when it is falsy
but not the number `0`, otherwise its string form.  On an empty cursor the
shift yields `undefined`, which is falsy, so the result is `none`. -/
def truthyString : List Value → Except DecodeError (Option String × List Value)
  | [] => .ok (none, [])
  | v :: rest =>
      if !truthy v && v != Value.num 0 then .ok (none, rest)
      else .ok (some (jsToString v), rest)

/-- `const bool = (v) => !!v.shift()`: truthiness of the front value;
`false` on an empty cursor (shift yields `undefined`). -/
def bool : List Value → Except DecodeError (Bool × List Value)
  | [] => .ok (false, [])
  | v :: rest => .ok (truthy v, rest)

/-- The `while (n-- > 0)` loop shared by the AND/OR cases of `boolExpr`:
run `eval` `n` times, folding the results with `op` (`result = op result next`;
no short-circuit — every sub-formula is decoded). -/
def evalLoop (eval : List Value → Except DecodeError (Bool × List Value))
    (op : Bool → Bool → Bool) :
    Nat → List Value → Bool → Except DecodeError (Bool × List Value)
  | 0, stack, acc => .ok (acc, stack)
  | n + 1, stack, acc =>
    match eval stack with
    | .error err => .error err
    | .ok (r, stack) => evalLoop eval op n stack (op acc r)

/-- `function boolExpr(stack, isSourceSet)` with an explicit fuel parameter:
read a numeric tag; `-1` negates one sub-formula, `-3` folds a counted AND,
`-2` a counted OR, and any other tag is looked up in the style table. -/
def boolExprFuel : Nat → List Value → (Int → Bool) → Except DecodeError (Bool × List Value)
  | 0, _, _ => .error .outOfFuel
  | fuel + 1, stack, isSet =>
    match number stack with
    | .error err => .error err
    | .ok (type, stack) =>
      if type = -1 then
        match boolExprFuel fuel stack isSet with
        | .error err => .error err
        | .ok (r, stack) => .ok (!r, stack)
      else if type = -3 then
        match number stack with
        | .error err => .error err
        | .ok (nAnds, stack) =>
            evalLoop (fun s => boolExprFuel fuel s isSet) (fun a b => a && b)
              nAnds.toNat stack true
      else if type = -2 then
        match number stack with
        | .error err => .error err
        | .ok (nOrs, stack) =>
            evalLoop (fun s => boolExprFuel fuel s isSet) (fun a b => a || b)
              nOrs.toNat stack false
      else
        .ok (isSet type, stack)

/-- The formula evaluator as run by the helper: fuel `stack.length + 1`
always suffices (proved below). -/
def boolExpr (stack : List Value) (isSet : Int → Bool) :
    Except DecodeError (Bool × List Value) :=
  boolExprFuel (stack.length + 1) stack isSet

/-- The style table, modelled as the list of indices set so far.
`setSource(n)` is `if (canSetSource) sources[n] = true` — a no-op while
suppressed, and idempotent on an already-set index. -/
def setSource (canSet : Bool) (sources : List Int) (n : Int) : List Int :=
  if canSet then (if n ∈ sources then sources else n :: sources) else sources

/-- The `while (n-- > 0)` loops that read style indices:
`cond ? setSource(number(stack)) : number(stack)` — an index token is always
consumed, and is set only when `doSet` holds (and setting is not suppressed). -/
def setLoop (doSet canSet : Bool) :
    Nat → List Value → List Int → Except DecodeError (List Value × List Int)
  | 0, stack, sources => .ok (stack, sources)
  | n + 1, stack, sources =>
    match number stack with
    | .error err => .error err
    | .ok (idx, stack) =>
        setLoop doSet canSet n stack (if doSet then setSource canSet sources idx else sources)

/-- The dependency loop: read `n` style indices; `if (!isSourceSet(depIndex)) abort()`. -/
def depLoop (sources : List Int) :
    Nat → List Value → Bool → Except DecodeError (List Value × Bool)
  | 0, stack, canSet => .ok (stack, canSet)
  | n + 1, stack, canSet =>
    match number stack with
    | .error err => .error err
    | .ok (depIndex, stack) =>
        depLoop sources n stack (if depIndex ∈ sources then canSet else false)

/-- The switch-arm loop: for each arm read the literal match string, its
set-count, and that many style indices, setting them only when the
discriminant equals the arm's string (`value === matchValue`). -/
def armsLoop (value : Option String) (canSet : Bool) :
    Nat → List Value → List Int → Except DecodeError (List Value × List Int)
  | 0, stack, sources => .ok (stack, sources)
  | n + 1, stack, sources =>
    match string stack with
    | .error err => .error err
    | .ok (matchValue, stack) =>
      match number stack with
      | .error err => .error err
      | .ok (nSources, stack) =>
        match setLoop (decide (value = some matchValue)) canSet nSources.toNat stack sources with
        | .error err => .error err
        | .ok (stack, sources) => armsLoop value canSet n stack sources

/-- `function sourceExpr(stack, isSourceSet, setSource, abort)`: decode one
source expression, updating the style table subject to the suppression flag
(`canSetSource`, threaded explicitly).  The tag's bits select a dependency
check (`& 1`), a boolean condition (`& 2`), and then exactly one of the
switch form (`& 4`), the ternary form (`type === 0`), or the plain style
list. -/
def sourceExpr (stack0 : List Value) (sources : List Int) (canSet0 : Bool) :
    Except DecodeError (List Value × List Int × Bool) :=
  match number stack0 with
  | .error err => .error err
  | .ok (type, stack1) =>
    match ((if Int.land type 1 ≠ 0 then
            match number stack1 with
            | .error err => .error err
            | .ok (numDeps, stack) => depLoop sources numDeps.toNat stack canSet0
           else .ok (stack1, canSet0)) : Except DecodeError (List Value × Bool)) with
    | .error err => .error err
    | .ok (stack2, canSet1) =>
      match ((if Int.land type 2 ≠ 0 then
              match bool stack2 with
              | .error err => .error err
              | .ok (b, stack) => .ok (stack, if b then canSet1 else false)
             else .ok (stack2, canSet1)) : Except DecodeError (List Value × Bool)) with
      | .error err => .error err
      | .ok (stack3, canSet2) =>
        if Int.land type 4 ≠ 0 then
          match number stack3 with
          | .error err => .error err
          | .ok (nValues, stack4) =>
            match number stack4 with
            | .error err => .error err
            | .ok (ifFalsy, stack5) =>
              match truthyString stack5 with
              | .error err => .error err
              | .ok (value0, stack6) =>
                match ((match value0 with
                       | some s => .ok (some s, stack6, canSet2)
                       | none =>
                         if ifFalsy = 2 then
                           match string stack6 with
                           | .error err => .error err
                           | .ok (d, stack) => .ok (some d, stack, canSet2)
                         else if ifFalsy = 0 then .error DecodeError.stringExpected
                         else if ifFalsy = 1 then .ok (none, stack6, false)
                         else .error DecodeError.wtf) :
                          Except DecodeError (Option String × List Value × Bool)) with
                | .error err => .error err
                | .ok (value, stack7, canSet3) =>
                  match armsLoop value canSet3 nValues.toNat stack7 sources with
                  | .error err => .error err
                  | .ok (stack8, sources1) => .ok (stack8, sources1, canSet3)
        else if type = 0 then
          match bool stack3 with
          | .error err => .error err
          | .ok (condition, stack4) =>
            match number stack4 with
            | .error err => .error err
            | .ok (nTrue, stack5) =>
              match setLoop condition canSet2 nTrue.toNat stack5 sources with
              | .error err => .error err
              | .ok (stack6, sources1) =>
                match number stack6 with
                | .error err => .error err
                | .ok (nFalse, stack7) =>
                  match setLoop (!condition) canSet2 nFalse.toNat stack7 sources1 with
                  | .error err => .error err
                  | .ok (stack8, sources2) => .ok (stack8, sources2, canSet2)
        else
          match number stack3 with
          | .error err => .error err
          | .ok (nSources, stack4) =>
            match setLoop true canSet2 nSources.toNat stack4 sources with
            | .error err => .error err
            | .ok (stack5, sources1) => .ok (stack5, sources1, canSet2)

/-- `while (nSources-- > 0) { sourceExpr(...); canSetSource = true; }`:
each iteration runs one source expression and then resets the suppression
flag to `true` before the next begins. -/
def sourceLoop :
    Nat → List Value → List Int → Bool → Except DecodeError (List Value × List Int)
  | 0, stack, sources, _ => .ok (stack, sources)
  | n + 1, stack, sources, canSet =>
    match sourceExpr stack sources canSet with
    | .error err => .error err
    | .ok (stack, sources, _) => sourceLoop n stack sources true

/-- `while (nOutputs-- > 0) { let c = string(stack); if (boolExpr(stack, isSourceSet)) classes.push(c); }`. -/
def outputLoop :
    Nat → List Value → List Int → List String →
    Except DecodeError (List String × List Int × List Value)
  | 0, stack, sources, classes => .ok (classes, sources, stack)
  | n + 1, stack, sources, classes =>
    match string stack with
    | .error err => .error err
    | .ok (c, stack) =>
      match boolExpr stack (fun k => decide (k ∈ sources)) with
      | .error err => .error err
      | .ok (r, stack) =>
          outputLoop n stack sources (if r then classes ++ [c] else classes)

/-- `function _classnames(stack)`: read the two counts, run the source pass
(style table starts empty, suppression flag starts true), run the output
pass, and join the collected class names with a single space. -/
def _classnames (stack : List Value) : Except DecodeError String :=
  match number stack with
  | .error err => .error err
  | .ok (nSources, stack) =>
    match number stack with
    | .error err => .error err
    | .ok (nOutputs, stack) =>
      match sourceLoop nSources.toNat stack [] true with
      | .error err => .error err
      | .ok (stack, sources) =>
        match outputLoop nOutputs.toNat stack sources [] with
        | .error err => .error err
        | .ok (classes, _, _) => .ok (String.intercalate " " classes)

/-- Spec-side observation of the output pass (§4.3 of the spec): decode each
output expression into its class-name string paired with its formula's value,
in declaration order.  Used to state that the helper's result is exactly the
space-join of the names whose formula evaluated true. -/
def outputSpecTrace :
    Nat → List Value → List Int → Except DecodeError (List (String × Bool) × List Value)
  | 0, stack, _ => .ok ([], stack)
  | n + 1, stack, sources =>
    match string stack with
    | .error err => .error err
    | .ok (c, stack) =>
      match boolExpr stack (fun k => decide (k ∈ sources)) with
      | .error err => .error err
      | .ok (r, stack) =>
        match outputSpecTrace n stack sources with
        | .error err => .error err
        | .ok (pairs, stack) => .ok ((c, r) :: pairs, stack)

/-- Encoding of one switch arm: its literal match string, its set-count, and
its style indices. -/
def encodeArm (arm : String × List Int) : List Value :=
  Value.str arm.1 :: Value.num arm.2.length :: arm.2.map Value.num

/-- Encoding of a list of switch arms, in order. -/
def encodeArms : List (String × List Int) → List Value
  | [] => []
  | arm :: arms => encodeArm arm ++ encodeArms arms

/-! ## Basic facts about the cursor primitives -/

theorem number_ok_iff (s s' : List Value) (n : Int) :
    number s = .ok (n, s') ↔ s = Value.num n :: s' := by
  constructor
  · intro h
    match s with
    | [] => simp [number] at h
    | Value.num m :: rest => simp [number] at h; simp [h.1, h.2]
    | Value.str t :: rest => simp [number] at h
    | Value.bool b :: rest => simp [number] at h
    | Value.undef :: rest => simp [number] at h
  · intro h; subst h; simp [number]

theorem number_ok_length (s s' : List Value) (n : Int)
    (h : number s = .ok (n, s')) : s'.length < s.length := by
  rw [number_ok_iff] at h
  subst h
  simp

/-! ## The formula evaluator consumes the cursor -/

theorem evalLoop_length {eval : List Value → Except DecodeError (Bool × List Value)}
    {op : Bool → Bool → Bool}
    (heval : ∀ s r s', eval s = .ok (r, s') → s'.length < s.length) :
    ∀ (n : Nat) (s : List Value) (acc r : Bool) (s' : List Value),
      evalLoop eval op n s acc = .ok (r, s') → s'.length ≤ s.length := by
  intro n
  induction n with
  | zero =>
    intro s acc r s' h
    simp only [evalLoop, Except.ok.injEq, Prod.mk.injEq] at h
    rw [h.2]
  | succ n ih =>
    intro s acc r s' h
    simp only [evalLoop] at h
    cases he : eval s with
    | error err => rw [he] at h; simp at h
    | ok pr =>
      obtain ⟨r0, s0⟩ := pr
      rw [he] at h
      exact le_trans (ih s0 (op acc r0) r s' h) (le_of_lt (heval s r0 s0 he))

theorem boolExprFuel_length :
    ∀ (fuel : Nat) (stack : List Value) (isSet : Int → Bool) (r : Bool) (rest : List Value),
      boolExprFuel fuel stack isSet = .ok (r, rest) → rest.length < stack.length := by
  intro fuel
  induction fuel with
  | zero => intro stack isSet r rest h; simp [boolExprFuel] at h
  | succ fuel ih =>
    intro stack isSet r rest h
    simp only [boolExprFuel] at h
    cases hnum : number stack with
    | error err => rw [hnum] at h; simp at h
    | ok pr =>
      obtain ⟨type, stack1⟩ := pr
      simp only [hnum] at h
      have hlen1 : stack1.length < stack.length := number_ok_length _ _ _ hnum
      by_cases h1 : type = -1
      · rw [if_pos h1] at h
        cases hrec : boolExprFuel fuel stack1 isSet with
        | error err => rw [hrec] at h; simp at h
        | ok pr2 =>
          obtain ⟨r2, s2⟩ := pr2
          rw [hrec] at h
          simp only [Except.ok.injEq, Prod.mk.injEq] at h
          rw [← h.2]
          exact lt_trans (ih stack1 isSet r2 s2 hrec) hlen1
      · rw [if_neg h1] at h
        by_cases h3 : type = -3
        · rw [if_pos h3] at h
          cases hnum2 : number stack1 with
          | error err => rw [hnum2] at h; simp at h
          | ok pr2 =>
            obtain ⟨nAnds, stack2⟩ := pr2
            rw [hnum2] at h
            have hlen2 : stack2.length < stack1.length := number_ok_length _ _ _ hnum2
            have := evalLoop_length (fun s r s' hh => ih s isSet r s' hh)
              nAnds.toNat stack2 true r rest h
            omega
        · rw [if_neg h3] at h
          by_cases h2 : type = -2
          · rw [if_pos h2] at h
            cases hnum2 : number stack1 with
            | error err => rw [hnum2] at h; simp at h
            | ok pr2 =>
              obtain ⟨nOrs, stack2⟩ := pr2
              rw [hnum2] at h
              have hlen2 : stack2.length < stack1.length := number_ok_length _ _ _ hnum2
              have := evalLoop_length (fun s r s' hh => ih s isSet r s' hh)
                nOrs.toNat stack2 false r rest h
              omega
          · rw [if_neg h2] at h
            simp only [Except.ok.injEq, Prod.mk.injEq] at h
            rw [← h.2]
            exact hlen1

/-! ## Fuel sufficiency: the evaluator never runs out of fuel on
`stack.length + 1` -/

theorem number_error_notANumber (s : List Value) (err : DecodeError)
    (h : number s = .error err) : ∃ m, err = DecodeError.notANumber m := by
  match s with
  | [] => simp [number] at h; exact ⟨_, h.symm⟩
  | Value.num m :: rest => simp [number] at h
  | Value.str t :: rest => simp [number] at h; exact ⟨_, h.symm⟩
  | Value.bool b :: rest => simp [number] at h; exact ⟨_, h.symm⟩
  | Value.undef :: rest => simp [number] at h; exact ⟨_, h.symm⟩

theorem evalLoop_no_outOfFuel {eval : List Value → Except DecodeError (Bool × List Value)}
    {op : Bool → Bool → Bool} {L : Nat}
    (heval : ∀ s r s', eval s = .ok (r, s') → s'.length < s.length)
    (hne : ∀ s : List Value, s.length ≤ L → eval s ≠ .error .outOfFuel) :
    ∀ (n : Nat) (s : List Value) (acc : Bool), s.length ≤ L →
      evalLoop eval op n s acc ≠ .error .outOfFuel := by
  intro n
  induction n with
  | zero => intro s acc _ h; simp [evalLoop] at h
  | succ n ih =>
    intro s acc hs h
    simp only [evalLoop] at h
    cases he : eval s with
    | error err =>
      simp only [he, Except.error.injEq] at h
      exact hne s hs (h ▸ he)
    | ok pr =>
      obtain ⟨r0, s0⟩ := pr
      simp only [he] at h
      exact ih s0 (op acc r0) (le_trans (le_of_lt (heval s r0 s0 he)) hs) h

theorem boolExprFuel_no_outOfFuel :
    ∀ (fuel : Nat) (stack : List Value) (isSet : Int → Bool), stack.length < fuel →
      boolExprFuel fuel stack isSet ≠ .error .outOfFuel := by
  intro fuel
  induction fuel with
  | zero => intro stack isSet hlt; omega
  | succ fuel ih =>
    intro stack isSet hlt h
    simp only [boolExprFuel] at h
    cases hnum : number stack with
    | error err =>
      simp only [hnum, Except.error.injEq] at h
      obtain ⟨m, hm⟩ := number_error_notANumber _ _ hnum
      subst h
      simp at hm
    | ok pr =>
      obtain ⟨type, stack1⟩ := pr
      simp only [hnum] at h
      have hlen1 : stack1.length < stack.length := number_ok_length _ _ _ hnum
      by_cases h1 : type = -1
      · rw [if_pos h1] at h
        cases hrec : boolExprFuel fuel stack1 isSet with
        | error err =>
          simp only [hrec, Except.error.injEq] at h
          exact ih stack1 isSet (by omega) (h ▸ hrec)
        | ok pr2 => obtain ⟨r2, s2⟩ := pr2; simp only [hrec] at h; simp at h
      · rw [if_neg h1] at h
        by_cases h3 : type = -3
        · rw [if_pos h3] at h
          cases hnum2 : number stack1 with
          | error err =>
            simp only [hnum2, Except.error.injEq] at h
            obtain ⟨m, hm⟩ := number_error_notANumber _ _ hnum2
            subst h
            simp at hm
          | ok pr2 =>
            obtain ⟨nAnds, stack2⟩ := pr2
            simp only [hnum2] at h
            have hlen2 : stack2.length < stack1.length := number_ok_length _ _ _ hnum2
            exact evalLoop_no_outOfFuel (L := stack2.length)
              (fun s r s' hh => boolExprFuel_length fuel s isSet r s' hh)
              (fun s hs => ih s isSet (by omega))
              nAnds.toNat stack2 true (le_refl _) h
        · rw [if_neg h3] at h
          by_cases h2 : type = -2
          · rw [if_pos h2] at h
            cases hnum2 : number stack1 with
            | error err =>
              simp only [hnum2, Except.error.injEq] at h
              obtain ⟨m, hm⟩ := number_error_notANumber _ _ hnum2
              subst h
              simp at hm
            | ok pr2 =>
              obtain ⟨nOrs, stack2⟩ := pr2
              simp only [hnum2] at h
              have hlen2 : stack2.length < stack1.length := number_ok_length _ _ _ hnum2
              exact evalLoop_no_outOfFuel (L := stack2.length)
                (fun s r s' hh => boolExprFuel_length fuel s isSet r s' hh)
                (fun s hs => ih s isSet (by omega))
                nOrs.toNat stack2 false (le_refl _) h
          · rw [if_neg h2] at h
            simp at h

theorem boolExprFuel_not (fuel : Nat) (stack : List Value) (isSet : Int → Bool) :
    boolExprFuel (fuel + 1) (Value.num (-1) :: stack) isSet =
      match boolExprFuel fuel stack isSet with
      | .error err => .error err
      | .ok (r, s) => .ok (!r, s) := by
  simp [boolExprFuel, number]

/-! ## Claim theorems about the Boolean-Formula Evaluator -/

/-- C10: the recursive formula evaluator terminates on every finite cursor:
fuel exceeding the cursor length is never exhausted (in particular the fuel
`stack.length + 1` used by `boolExpr` suffices), and every successful
evaluation consumes at least one cursor element. -/
theorem boolExpr_terminates (fuel : Nat) (stack : List Value) (isSet : Int → Bool)
    (h : stack.length < fuel) :
    boolExprFuel fuel stack isSet ≠ .error DecodeError.outOfFuel ∧
    (∀ r rest, boolExprFuel fuel stack isSet = .ok (r, rest) → rest.length < stack.length) ∧
    boolExpr stack isSet ≠ .error DecodeError.outOfFuel :=
  ⟨boolExprFuel_no_outOfFuel fuel stack isSet h,
   fun r rest hh => boolExprFuel_length fuel stack isSet r rest hh,
   boolExprFuel_no_outOfFuel _ stack isSet (Nat.lt_succ_self _)⟩

/-- Witness for C10 at a concrete input. -/
theorem boolExpr_terminates_witness :
    boolExprFuel 2 [Value.num 5] (fun _ => false) ≠ .error DecodeError.outOfFuel :=
  (boolExpr_terminates 2 [Value.num 5] (fun _ => false) (by decide)).1

/-- C8: the empty AND (tag `-3`, count `0`) evaluates true, the empty OR
(tag `-2`, count `0`) evaluates false, and double negation (`-1, -1`
prefixed to any successfully evaluating sub-formula) evaluates to the same
boolean, consuming the same cursor. -/
theorem boolExpr_algebraic_identities :
    (∀ (rest : List Value) (isSet : Int → Bool),
        boolExpr (Value.num (-3) :: Value.num 0 :: rest) isSet = .ok (true, rest)) ∧
    (∀ (rest : List Value) (isSet : Int → Bool),
        boolExpr (Value.num (-2) :: Value.num 0 :: rest) isSet = .ok (false, rest)) ∧
    (∀ (stack : List Value) (isSet : Int → Bool) (r : Bool) (rest : List Value),
        boolExpr stack isSet = .ok (r, rest) →
        boolExpr (Value.num (-1) :: Value.num (-1) :: stack) isSet = .ok (r, rest)) := by
  refine ⟨?_, ?_, ?_⟩
  · intro rest isSet
    simp [boolExpr, boolExprFuel, number, evalLoop]
  · intro rest isSet
    simp [boolExpr, boolExprFuel, number, evalLoop]
  · intro stack isSet r rest h
    simp only [boolExpr] at h
    have e1 : boolExpr (Value.num (-1) :: Value.num (-1) :: stack) isSet
        = boolExprFuel (stack.length + 1 + 1 + 1)
            (Value.num (-1) :: Value.num (-1) :: stack) isSet := by
      simp only [boolExpr, List.length_cons]
    rw [e1, boolExprFuel_not, boolExprFuel_not, h]
    simp

/-- Witness for C8 at a concrete sub-formula. -/
theorem boolExpr_algebraic_identities_witness :
    boolExpr [Value.num (-1), Value.num (-1), Value.num 0] (fun _ => false)
      = .ok (false, []) :=
  boolExpr_algebraic_identities.2.2 [Value.num 0] (fun _ => false) false [] rfl

/-- C1 counterexample: with the front tag `-4` the formula evaluator does NOT
fail — it returns the boolean `false` (the table value of the never-set
index `-4`), refuting the claim that any negative tag other than
`-1`/`-2`/`-3` is a decode error. -/
theorem boolExpr_neg4_counterexample :
    ¬ (∃ err, boolExpr [Value.num (-4)] (fun k => decide (k ∈ ([] : List Int)))
        = .error err) := by
  intro h
  obtain ⟨err, h⟩ := h
  rw [show boolExpr [Value.num (-4)] (fun k => decide (k ∈ ([] : List Int)))
      = .ok (false, []) from rfl] at h
  exact Except.noConfusion h

/-- C1 amended: a tag other than `-1`, `-2`, `-3` (in particular any other
negative tag such as `-4`) is handled by the default case as a style-index
lookup: evaluation succeeds with the table's value for that index, which is
`false` for every table whose set indices are all non-negative. -/
theorem boolExpr_unrecognized_negative_tag (t : Int) (rest : List Value)
    (isSet : Int → Bool) (h0 : t < 0) (h1 : t ≠ -1) (h2 : t ≠ -2) (h3 : t ≠ -3) :
    boolExpr (Value.num t :: rest) isSet = .ok (isSet t, rest) ∧
    (∀ sources : List Int, (∀ i ∈ sources, 0 ≤ i) →
      boolExpr (Value.num t :: rest) (fun k => decide (k ∈ sources))
        = .ok (false, rest)) := by
  constructor
  · simp [boolExpr, boolExprFuel, number, h1, h2, h3]
  · intro sources hsrc
    have hmem : t ∉ sources := fun hc => absurd (hsrc t hc) (by omega)
    simp [boolExpr, boolExprFuel, number, h1, h2, h3, hmem]

/-- Witness for C1's amended theorem at tag `-4`. -/
theorem boolExpr_unrecognized_negative_tag_witness :
    boolExpr [Value.num (-4)] (fun _ => false) = .ok (false, []) :=
  (boolExpr_unrecognized_negative_tag (-4) [] (fun _ => false)
    (by decide) (by decide) (by decide) (by decide)).1

/-- C2 counterexample: on an empty cursor, `bool` returns `false` and
`truthyString` returns absent — neither fails — refuting the claim that all
four primitive reads fail on an empty cursor. -/
theorem empty_cursor_reads_counterexample :
    bool [] = .ok (false, []) ∧ truthyString [] = .ok (none, []) :=
  ⟨rfl, rfl⟩

/-- C2 amended: on an empty cursor, `number` and `string` fail (with the
"not a number" error and the `toString`-on-`undefined` type error
respectively), while `truthyString` succeeds with absent and `bool` succeeds
with `false`. -/
theorem empty_cursor_read_behavior :
    number [] = .error (DecodeError.notANumber "not a number: undefined") ∧
    string [] = .error DecodeError.typeError ∧
    truthyString [] = .ok (none, []) ∧
    bool [] = .ok (false, []) :=
  ⟨rfl, rfl, rfl, rfl⟩

/-! ## The switch discriminant read and the source-expression decoder -/

/-- C3: the switch-discriminant read returns absent for the empty string, for
`undefined`, and for every other falsy value except the number `0`, which is
returned as the present string `"0"`; consequently a numeric-zero
discriminant matches a switch arm whose literal match string is `"0"`. -/
theorem truthyString_absent_and_zero :
    (∀ rest, truthyString (Value.str "" :: rest) = .ok (none, rest)) ∧
    (∀ rest, truthyString (Value.undef :: rest) = .ok (none, rest)) ∧
    (∀ (v : Value) (rest : List Value), truthy v = false → v ≠ Value.num 0 →
        truthyString (v :: rest) = .ok (none, rest)) ∧
    (∀ rest, truthyString (Value.num 0 :: rest) = .ok (some "0", rest)) ∧
    sourceExpr [Value.num 4, Value.num 1, Value.num 0, Value.num 0,
        Value.str "0", Value.num 1, Value.num 9] [] true = .ok ([], [9], true) := by
  refine ⟨fun rest => rfl, fun rest => rfl, ?_, fun rest => rfl, rfl⟩
  intro v rest h1 h2
  simp [truthyString, h1, bne_iff_ne, h2]

/-- Witness for C3's general falsy conjunct at the value `false`. -/
theorem truthyString_absent_and_zero_witness :
    truthyString [Value.bool false] = .ok (none, []) :=
  truthyString_absent_and_zero.2.2.1 (Value.bool false) [] rfl (by decide)

theorem setLoop_mapNum (doSet canSet : Bool) :
    ∀ (idxs : List Int) (rest : List Value) (sources : List Int),
      setLoop doSet canSet idxs.length (idxs.map Value.num ++ rest) sources =
        .ok (rest, if doSet then List.foldl (setSource canSet) sources idxs else sources) := by
  intro idxs
  induction idxs with
  | nil => intro rest sources; cases doSet <;> simp [setLoop]
  | cons i is ih =>
    intro rest sources
    cases doSet <;> simp [setLoop, number, ih]

/-- C6: a ternary source expression consumes its condition, both counts and
both full index lists no matter what the condition is — the remaining cursor
is always `rest` — and only the branch selected by the condition's truthiness
is folded into the style table (with a false condition, no true-branch index
is ever set). -/
theorem ternary_branch_consumption (c : Value) (tIdxs fIdxs : List Int)
    (rest : List Value) (sources : List Int) (canSet : Bool) :
    sourceExpr (Value.num 0 :: c :: Value.num (tIdxs.length : Int) ::
        (tIdxs.map Value.num ++ (Value.num (fIdxs.length : Int) ::
          (fIdxs.map Value.num ++ rest)))) sources canSet
      = .ok (rest,
          (if truthy c then List.foldl (setSource canSet) sources tIdxs
           else List.foldl (setSource canSet) sources fIdxs), canSet) := by
  have l1 : Int.land 0 1 = 0 := by decide
  have l2 : Int.land 0 2 = 0 := by decide
  have l4 : Int.land 0 4 = 0 := by decide
  cases hc : truthy c <;>
    simp [sourceExpr, number, bool, hc, l1, l2, l4, setLoop_mapNum]

theorem armsLoop_noMatch (canSet : Bool) :
    ∀ (arms : List (String × List Int)) (rest : List Value) (sources : List Int),
      armsLoop none canSet arms.length (encodeArms arms ++ rest) sources
        = .ok (rest, sources) := by
  intro arms
  induction arms with
  | nil => intro rest sources; simp [armsLoop, encodeArms]
  | cons arm arms ih =>
    intro rest sources
    obtain ⟨m, idxs⟩ := arm
    simp [armsLoop, encodeArms, encodeArm, string, jsToString, number,
      setLoop_mapNum, ih]

/-- C7: a switch source expression whose discriminant reads as absent under
falsy-policy `1` (unset) invokes suppression (the returned flag is `false`),
sets no style index (the table is returned unchanged), and still consumes
every arm — match string, set-count, and index tokens — leaving the cursor
exactly at `rest`. -/
theorem switch_unset_absent (d : Value) (arms : List (String × List Int))
    (rest : List Value) (sources : List Int) (canSet : Bool)
    (hd1 : truthy d = false) (hd2 : d ≠ Value.num 0) :
    sourceExpr (Value.num 4 :: Value.num (arms.length : Int) :: Value.num 1 ::
        d :: (encodeArms arms ++ rest)) sources canSet
      = .ok (rest, sources, false) := by
  have l1 : Int.land 4 1 = 0 := by decide
  have l2 : Int.land 4 2 = 0 := by decide
  have l4 : Int.land 4 4 = 4 := by decide
  simp [sourceExpr, number, truthyString, hd1, bne_iff_ne, hd2, l1, l2, l4,
    armsLoop_noMatch]

/-- Witness for C7 at a one-arm switch with empty-string discriminant. -/
theorem switch_unset_absent_witness :
    sourceExpr [Value.num 4, Value.num 1, Value.num 1, Value.str "",
        Value.str "x", Value.num 1, Value.num 9] [] true = .ok ([], [], false) :=
  switch_unset_absent (Value.str "") [("x", [9])] [] [] true rfl (by decide)

/-! ## The driver: suppression scoping, the output pass, the final string -/

/-- C5: suppression is scoped to a single source expression — whatever
suppression state expression `i` ends in (`b`, possibly `false`), the source
loop continues with the remaining expressions starting from a suppression
flag reset to `true`. -/
theorem sourceLoop_resets_suppression (n : Nat) (stack : List Value)
    (sources : List Int) (canSet : Bool) (st : List Value) (so : List Int) (b : Bool)
    (h : sourceExpr stack sources canSet = .ok (st, so, b)) :
    sourceLoop (n + 1) stack sources canSet = sourceLoop n st so true := by
  simp [sourceLoop, h]

/-- Witness for C5: the first expression suppresses (returns flag `false`),
and the loop continues on the next expression with the flag reset. -/
theorem sourceLoop_resets_suppression_witness :
    sourceLoop 2 [Value.num 2, Value.bool false, Value.num 1, Value.num 5,
        Value.num 2, Value.bool true, Value.num 1, Value.num 7] [] true
      = sourceLoop 1 [Value.num 2, Value.bool true, Value.num 1, Value.num 7] [] true :=
  sourceLoop_resets_suppression 1
    [Value.num 2, Value.bool false, Value.num 1, Value.num 5,
     Value.num 2, Value.bool true, Value.num 1, Value.num 7] [] true
    [Value.num 2, Value.bool true, Value.num 1, Value.num 7] [] false rfl

/-- C9: the output pass never mutates the style table — whatever table the
output loop is started with, a successful run returns it unchanged. -/
theorem outputLoop_preserves_style_table :
    ∀ (n : Nat) (stack : List Value) (sources : List Int) (classes : List String)
      (cl : List String) (so : List Int) (st : List Value),
      outputLoop n stack sources classes = .ok (cl, so, st) → so = sources := by
  intro n
  induction n with
  | zero =>
    intro stack sources classes cl so st h
    simp only [outputLoop, Except.ok.injEq, Prod.mk.injEq] at h
    exact h.2.1.symm
  | succ n ih =>
    intro stack sources classes cl so st h
    simp only [outputLoop] at h
    cases hs : string stack with
    | error err => simp only [hs] at h; exact absurd h (by simp)
    | ok pr =>
      obtain ⟨c, s1⟩ := pr
      simp only [hs] at h
      cases hb : boolExpr s1 (fun k => decide (k ∈ sources)) with
      | error err => simp only [hb] at h; exact absurd h (by simp)
      | ok pr2 =>
        obtain ⟨r, s2⟩ := pr2
        simp only [hb] at h
        exact ih s2 sources (if r then classes ++ [c] else classes) cl so st h

/-- Witness for C9 at a concrete one-output run. -/
theorem outputLoop_preserves_style_table_witness : ([5] : List Int) = [5] :=
  outputLoop_preserves_style_table 1 [Value.str "a", Value.num (-3), Value.num 0]
    [5] [] ["a"] [5] [] (by rfl)

theorem outputLoop_trace :
    ∀ (n : Nat) (stack : List Value) (sources : List Int) (classes : List String)
      (cl : List String) (so : List Int) (st : List Value),
      outputLoop n stack sources classes = .ok (cl, so, st) →
      ∃ pairs, outputSpecTrace n stack sources = .ok (pairs, st) ∧
        cl = classes ++ (pairs.filter (fun p => p.2)).map Prod.fst := by
  intro n
  induction n with
  | zero =>
    intro stack sources classes cl so st h
    simp only [outputLoop, Except.ok.injEq, Prod.mk.injEq] at h
    exact ⟨[], by simp [outputSpecTrace, h.2.2], by simp [h.1.symm]⟩
  | succ n ih =>
    intro stack sources classes cl so st h
    simp only [outputLoop] at h
    cases hs : string stack with
    | error err => simp only [hs] at h; exact absurd h (by simp)
    | ok pr =>
      obtain ⟨c, s1⟩ := pr
      simp only [hs] at h
      cases hb : boolExpr s1 (fun k => decide (k ∈ sources)) with
      | error err => simp only [hb] at h; exact absurd h (by simp)
      | ok pr2 =>
        obtain ⟨r, s2⟩ := pr2
        simp only [hb] at h
        obtain ⟨pairs, htr, hcl⟩ :=
          ih s2 sources (if r then classes ++ [c] else classes) cl so st h
        refine ⟨(c, r) :: pairs, ?_, ?_⟩
        · simp [outputSpecTrace, hs, hb, htr]
        · cases r <;> simp_all [List.filter_cons]

/-- C4: whenever evaluation succeeds, the result is exactly the class names
of the output expressions whose formulas evaluated true, in declaration
order, joined with a single space — and the empty string when none did. -/
theorem classnames_joins_true_outputs (stack : List Value) (out : String)
    (h : _classnames stack = .ok out) :
    ∃ (nSources nOutputs : Int) (s1 s2 s3 rest : List Value)
      (sources : List Int) (pairs : List (String × Bool)),
      number stack = .ok (nSources, s1) ∧
      number s1 = .ok (nOutputs, s2) ∧
      sourceLoop nSources.toNat s2 [] true = .ok (s3, sources) ∧
      outputSpecTrace nOutputs.toNat s3 sources = .ok (pairs, rest) ∧
      out = String.intercalate " " ((pairs.filter (fun p => p.2)).map Prod.fst) ∧
      ((pairs.filter (fun p => p.2)).map Prod.fst = [] → out = "") := by
  simp only [_classnames] at h
  cases h1 : number stack with
  | error err => simp only [h1] at h; exact absurd h (by simp)
  | ok pr =>
    obtain ⟨nS, s1⟩ := pr
    simp only [h1] at h
    cases h2 : number s1 with
    | error err => simp only [h2] at h; exact absurd h (by simp)
    | ok pr2 =>
      obtain ⟨nO, s2⟩ := pr2
      simp only [h2] at h
      cases h3 : sourceLoop nS.toNat s2 [] true with
      | error err => simp only [h3] at h; exact absurd h (by simp)
      | ok pr3 =>
        obtain ⟨s3, sources⟩ := pr3
        simp only [h3] at h
        cases h4 : outputLoop nO.toNat s3 sources [] with
        | error err => simp only [h4] at h; exact absurd h (by simp)
        | ok pr4 =>
          obtain ⟨cl, so, st⟩ := pr4
          simp only [h4, Except.ok.injEq] at h
          obtain ⟨pairs, htr, hcl⟩ := outputLoop_trace nO.toNat s3 sources [] cl so st h4
          refine ⟨nS, nO, s1, s2, s3, st, sources, pairs, rfl, h2, h3, htr, ?_, ?_⟩
          · rw [← h, hcl]; simp
          · intro hz; rw [← h, hcl, hz]; rfl

/-- Witness for C4: two outputs, the first guarded by the empty AND (true),
the second by the empty OR (false); the result is `"a"`. -/
theorem classnames_joins_true_outputs_witness :
    ∃ (nSources nOutputs : Int) (s1 s2 s3 rest : List Value)
      (sources : List Int) (pairs : List (String × Bool)),
      number [Value.num 0, Value.num 2, Value.str "a", Value.num (-3), Value.num 0,
          Value.str "b", Value.num (-2), Value.num 0] = .ok (nSources, s1) ∧
      number s1 = .ok (nOutputs, s2) ∧
      sourceLoop nSources.toNat s2 [] true = .ok (s3, sources) ∧
      outputSpecTrace nOutputs.toNat s3 sources = .ok (pairs, rest) ∧
      "a" = String.intercalate " " ((pairs.filter (fun p => p.2)).map Prod.fst) ∧
      ((pairs.filter (fun p => p.2)).map Prod.fst = [] → "a" = "") :=
  classnames_joins_true_outputs
    [Value.num 0, Value.num 2, Value.str "a", Value.num (-3), Value.num 0,
     Value.str "b", Value.num (-2), Value.num 0] "a" rfl

end Classnames
